import Mathlib

/-!
# Verification of the pro-mode solving pipeline

Shallow embedding of the pro-mode pipeline of this repository:
the classify / extract / verify / generate / select workflow in
`src/services/agentWorkflow.ts` and the agents in
`src/services/agents/*.ts`, together with theorems checking the
natural-language specification against it.

Modelling conventions:

* A model call (`openai.chat.completions.create`) is an external
  collaborator.  Its observable outcome is either a thrown error
  (`.err msg`) or a response whose message content is an optional string;
  for the agents that `JSON.parse` the content we also record the parse
  result (`Option Json`), since JSON decoding of a completion is part of
  the external ModelCaller boundary.
* JavaScript values produced by `JSON.parse` are modelled by the `Json`
  inductive; JavaScript truthiness is `jsTruthy`.  Property access
  `o.f` is `jGet o "f"` (`none` for `undefined`).
* `s₁ || s₂` on strings (JS: empty string is falsy) is `jsOr`.
* Thrown JS `Error` values are modelled by their message string, using
  `Except String`.
* The status observer is modelled by returning the list of emitted
  `WorkflowState` values in order.
-/

/-- JavaScript values that can result from `JSON.parse`. -/
inductive Json where
  | null : Json
  | bool (b : Bool) : Json
  | num (n : Int) : Json
  | str (s : String) : Json
  | arr (elems : List Json) : Json
  | obj (fields : List (String × Json)) : Json

/-- JavaScript truthiness of a `Json` value
(`null`, `false`, `0` and `""` are falsy; arrays and objects are truthy). -/
def jsTruthy : Json → Bool
  | .null => false
  | .bool b => b
  | .num n => n != 0
  | .str s => s != ""
  | .arr _ => true
  | .obj _ => true

/-- Property access `j.k`: `none` models JavaScript `undefined`
(absent field, or access on a non-object). -/
def jGet (j : Json) (k : String) : Option Json :=
  match j with
  | .obj fields => fields.lookup k
  | _ => none

/-- Truthiness of `o.f` where the access may give `undefined`. -/
def truthyOpt : Option Json → Bool
  | none => false
  | some j => jsTruthy j

/-- Replace (or add) field `k` of an object; identity on non-objects. -/
def jSet (j : Json) (k : String) (v : Json) : Json :=
  match j with
  | .obj fields => .obj ((k, v) :: fields.filter (fun kv => kv.1 != k))
  | other => other

/-- JavaScript `a || b` for an optional string `a`
(`undefined` and `""` are falsy). -/
def jsOr (s : Option String) (d : String) : String :=
  match s with
  | none => d
  | some v => if v = "" then d else v

/-- JavaScript whitespace (the ASCII part relevant to this code):
characters stripped by `String.prototype.trim`. -/
def isJsSpace (c : Char) : Bool :=
  c == ' ' || c == '\t' || c == '\n' || c == '\r' || c == '\x0b' || c == '\x0c'

/-- JavaScript `s.trim()` (ASCII whitespace). -/
def jsTrim (s : String) : String :=
  ⟨((s.data.dropWhile isJsSpace).reverse.dropWhile isJsSpace).reverse⟩

/-- Lower-case one character (`A`–`Z` only, as relevant to the ASCII
tokens this code compares). -/
def lowerChar (c : Char) : Char :=
  if 65 ≤ c.toNat && c.toNat ≤ 90 then Char.ofNat (c.toNat + 32) else c

/-- JavaScript `s.toLowerCase()` on ASCII content. -/
def jsToLower (s : String) : String := ⟨s.data.map lowerChar⟩

/-- The response normalization `content.trim().toLowerCase()` used by the
classify and verify agents. -/
def jsNormalize (s : String) : String := jsToLower (jsTrim s)

/-- Outcome of one model call as observed by an agent: a thrown transport
error, or a response whose message content is `raw` (`none` when the
completion has no content).  `parsed` records what `JSON.parse` returns on
the trimmed content (used only by the agents that parse). -/
inductive ModelOutcome where
  | err (msg : String) : ModelOutcome
  | resp (raw : Option String) (parsed : Option Json) : ModelOutcome

/-- Question types produced by the classifier
(`classifyAgent.ts`, `classifyQuestion`). -/
inductive QType where
  | coding : QType
  | general : QType
deriving DecidableEq

/-- Embedding of `ClassifyAgent.classifyQuestion` (`classifyAgent.ts` lines 16–75):
normalizes the response content with `trim().toLowerCase()`, accepts
exactly `"coding"` and `"general"`, defaults everything else (including a
thrown error or missing content) to `coding`. -/
def classifyQuestion (resp : Except String (Option String)) : QType :=
  match resp with
  | .error _ => .coding
  | .ok content =>
    let result := content.map jsNormalize
    if result = some "coding" then .coding
    else if result = some "general" then .general
    else .coding

/-- Embedding of `VerifyAgent.verifyExtractedText` (`verifyAgent.ts` lines 17–80):
normalizes the response content with `trim().toLowerCase()`; `"true"`
gives `true`, `"false"` gives `false`, anything else (including a thrown
error or missing content) gives `false`. -/
def verifyExtractedText (resp : Except String (Option String)) : Bool :=
  match resp with
  | .error _ => false
  | .ok content =>
    let result := content.map jsNormalize
    if result = some "true" then true
    else if result = some "false" then false
    else false

/-- Embedding of `ExtractAgent.extractProblemText` (`extractAgent.ts` lines 28–109).
The agent trims the response content; empty/missing content throws
`未能提取到题目内容`.  `JSON.parse` failure, or a falsy `title` or
`description`, throws the JSON-format error (the missing-field throw is
caught by the inner `catch` and re-wrapped).  A non-array `examples`
field is normalized to `[]`.  The outer `catch` prefixes every error
with `文本提取失败: `.  On success the parsed object (with normalized
`examples`) is returned unchanged (cast `as ExtractedProblem`). -/
def extractProblemText (mo : ModelOutcome) : Except String Json :=
  match mo with
  | .err m => .error ("文本提取失败: " ++ m)
  | .resp raw parsed =>
    match raw.map jsTrim with
    | none => .error ("文本提取失败: " ++ "未能提取到题目内容")
    | some content =>
      if content = "" then .error ("文本提取失败: " ++ "未能提取到题目内容")
      else
        match parsed with
        | none => .error ("文本提取失败: " ++ "提取内容格式错误，无法解析JSON。原始内容: "
            ++ content.take 200 ++ "...")
        | some extracted =>
          if truthyOpt (jGet extracted "title") && truthyOpt (jGet extracted "description") then
            match jGet extracted "examples" with
            | some (.arr _) => .ok extracted
            | _ => .ok (jSet extracted "examples" (.arr []))
          else
            .error ("文本提取失败: " ++ "提取内容格式错误，无法解析JSON。原始内容: "
              ++ content.take 200 ++ "...")

/-- One example of `ExtractedProblem` (`extractAgent.ts` lines 12–16). -/
structure Example where
  input : String
  output : String
  explanation : Option String := none
deriving DecidableEq

/-- The `ExtractedProblem` interface (`extractAgent.ts` lines 9–19), as
consumed by the orchestrator and the code agent. -/
structure ExtractedProblem where
  title : String
  description : String
  examples : List Example
  constraints : Option (List String) := none
  followUp : Option String := none
deriving DecidableEq

/-- One entry of the test array built by `CodeAgent.runTests`
(`codeAgent.ts` lines 113–127 give the TS shape). -/
structure TestEntry where
  input : String
  expected : String
  actual : Option String
  ok : Option Bool
deriving DecidableEq

/-- Embedding of `CodeAgent.runTests` (`codeAgent.ts` lines 318–327): a placeholder
that does not execute the code — it returns one entry per example with
`actual` and `ok` left `undefined`. -/
def runTests (code : Json) (examples : List Example) : List TestEntry :=
  examples.map (fun ex => ⟨ex.input, ex.output, none, none⟩)

/-- The value returned by `CodeAgent.generateSingleSolution`: the parsed
model JSON, plus the `tests` array assigned onto it by
`parsed.tests = await this.runTests(...)` when the problem has examples
(`some entries` overrides any model-supplied `"tests"` field of `json`,
exactly like the JS property assignment does). -/
structure SolutionData where
  json : Json
  tests : Option (List TestEntry)

/-- One element of the array returned by `CodeAgent.generateCodeSolutions`
(`codeAgent.ts` lines 113–130, `CodeSolution`). -/
structure CodeSolution where
  ok : Bool
  data : Option SolutionData
  error : Option String
  index : Nat

/-- Fallback `CodeSolution` used as the `getD` default in statements. -/
def dfltSol : CodeSolution := ⟨false, none, none, 0⟩

/-- Embedding of `CodeAgent.generateSingleSolution` (`codeAgent.ts` lines 210–284):
empty/missing content throws `未能生成解决方案`; a parse failure or a
falsy required field throws the JSON-format error (the missing-field
throw is caught by the inner `catch` and re-wrapped); on success, when
the problem has examples, `runTests` output is assigned to `tests`.
The outer `catch` rethrows unchanged. -/
def generateSingleSolution (problemText : ExtractedProblem) (mo : ModelOutcome) :
    Except String SolutionData :=
  match mo with
  | .err m => .error m
  | .resp raw parsed =>
    match raw.map jsTrim with
    | none => .error "未能生成解决方案"
    | some content =>
      if content = "" then .error "未能生成解决方案"
      else
        match parsed with
        | none => .error ("生成内容格式错误，无法解析JSON。原始内容: " ++ content.take 200 ++ "...")
        | some j =>
          if truthyOpt (jGet j "approach") && truthyOpt (jGet j "code")
              && truthyOpt (jGet j "timeComplexity") && truthyOpt (jGet j "spaceComplexity") then
            if problemText.examples.length > 0 then
              .ok ⟨j, some (runTests ((jGet j "code").getD .null) problemText.examples)⟩
            else
              .ok ⟨j, none⟩
          else
            .error ("生成内容格式错误，无法解析JSON。原始内容: " ++ content.take 200 ++ "...")

/-- Task status in the progress snapshots of `generateCodeSolutions`
(`codeAgent.ts` line 135). -/
inductive TaskStatus where
  | pending
  | running
  | success
  | failed
deriving DecidableEq

/-- One entry of the task snapshot array of `generateCodeSolutions`
(`codeAgent.ts` lines 147–154); `TaskFinal` is its state after the
fan-out settles. -/
structure TaskFinal where
  id : Nat
  status : TaskStatus
  model : String
  error : Option String
  testsPassed : Nat
  testsTotal : Nat
deriving DecidableEq

/-- Fallback `TaskFinal` used as the `getD` default in statements. -/
def dfltTask : TaskFinal := ⟨0, .pending, "", none, 0, 0⟩

/-- The `testsPassed` computation of `generateCodeSolutions`
(`codeAgent.ts` lines 172–176): `solution.tests.filter(t => t.ok === true).length`
guarded by `if (solution.tests)`.  When `tests` was assigned by
`runTests`, it filters those entries; otherwise it reads the
model-supplied `"tests"` JSON field — a truthy non-array value makes
`.filter` throw a `TypeError` (caught by the slot's `catch`). -/
def computeTestsPassed (d : SolutionData) : Except String Nat :=
  match d.tests with
  | some entries => .ok (entries.filter (fun t => match t.ok with
      | some true => true
      | _ => false)).length
  | none =>
    match jGet d.json "tests" with
    | none => .ok 0
    | some jv =>
      if jsTruthy jv then
        match jv with
        | .arr es => .ok (es.filter (fun e => match jGet e "ok" with
            | some (.bool true) => true
            | _ => false)).length
        | _ => .error "solution.tests.filter is not a function"
      else .ok 0

/-- One slot of the fan-out of `generateCodeSolutions`
(`codeAgent.ts` lines 161–205): result element and final task state.
A throw from `generateSingleSolution` or from the `testsPassed`
computation is converted by the slot's `catch` into a `failed` terminal
state; it never crosses the fan-out boundary. -/
def slotRun (problemText : ExtractedProblem) (mo : ModelOutcome) (index : Nat) :
    CodeSolution × TaskFinal :=
  match generateSingleSolution problemText mo with
  | .ok solution =>
    match computeTestsPassed solution with
    | .ok testsPassed =>
      (⟨true, some solution, none, index⟩,
       ⟨index, .success, "模型 " ++ toString (index + 1), none, testsPassed,
        problemText.examples.length⟩)
    | .error e =>
      (⟨false, none, some (jsOr (some e) "代码生成失败"), index⟩,
       ⟨index, .failed, "模型 " ++ toString (index + 1), some (jsOr (some e) "代码生成失败"), 0,
        problemText.examples.length⟩)
  | .error e =>
    (⟨false, none, some (jsOr (some e) "代码生成失败"), index⟩,
     ⟨index, .failed, "模型 " ++ toString (index + 1), some (jsOr (some e) "代码生成失败"), 0,
      problemText.examples.length⟩)

/-- Embedding of `CodeAgent.generateCodeSolutions` (`codeAgent.ts` lines 143–208):
the fan-out over the fixed three-model roster.  `mos i` is the model-call
outcome of slot `i`; `Promise.all` preserves slot order. -/
def generateCodeSolutions (problemText : ExtractedProblem) (mos : Nat → ModelOutcome) :
    List CodeSolution :=
  (List.range 3).map (fun i => (slotRun problemText (mos i) i).1)

/-- The task snapshot array of `generateCodeSolutions` after all three
slots have settled (each slot only writes its own entry). -/
def generateCodeTasks (problemText : ExtractedProblem) (mos : Nat → ModelOutcome) :
    List TaskFinal :=
  (List.range 3).map (fun i => (slotRun problemText (mos i) i).2)

/-- Embedding of `WorkflowState` (`agentWorkflow.ts` lines 8–13). -/
structure WorkflowState where
  currentStep : String
  progress : Nat
  stepDetails : String
  error : Option String := none
deriving DecidableEq

/-- Embedding of `AgentWorkflow.updateStatus` (`agentWorkflow.ts` lines 195–201):
builds the emitted state; it never sets `error`. -/
def updateStatus (step : String) (progress : Nat) (details : String) : WorkflowState :=
  ⟨step, progress, details, none⟩

/-- The selected payload of `selectBestCodeSolution`: either the data of a
successful candidate, or the synthesized failure object
(`agentWorkflow.ts` lines 182–188). -/
inductive SelData where
  | sol (d : SolutionData)
  | synth (approach code timeComplexity spaceComplexity : String)

/-- Return value of `AgentWorkflow.selectBestCodeSolution`
(`agentWorkflow.ts` line 168). -/
structure SelResult where
  data : SelData
  index : Nat
  reason : String

/-- The all-failed fallback of `selectBestCodeSolution`
(`agentWorkflow.ts` lines 180–191): synthesized error payload tagged with
index 0, message from `solutions[0]?.error || '所有解决方案都失败'`. -/
def selectFallback (solutions : List CodeSolution) : SelResult :=
  ⟨.synth "代码生成失败" ("错误: " ++ jsOr (solutions.head?.bind CodeSolution.error) "所有解决方案都失败")
     "N/A" "N/A",
   0, "所有解决方案都失败，返回错误信息"⟩

/-- Embedding of `AgentWorkflow.selectBestCodeSolution` (`agentWorkflow.ts` lines
168–192): `solutions.find(sol => sol.ok)`; a found candidate is used only
when it also has `data`, otherwise the fallback payload is returned. -/
def selectBestCodeSolution (solutions : List CodeSolution) : SelResult :=
  match solutions.find? (fun sol => sol.ok) with
  | some successfulSolution =>
    match successfulSolution.data with
    | some d =>
      ⟨.sol d, successfulSolution.index,
       "选择第" ++ toString (successfulSolution.index + 1) ++ "个解决方案：执行成功且ID最靠前"⟩
    | none => selectFallback solutions
  | none => selectFallback solutions

/-- Result of one iteration of the extraction/verification loop
(`agentWorkflow.ts` lines 84–103): `break` with the verified problem,
fall through to the next attempt (with the current value of the
`extractedText` variable), or a rethrown error. -/
inductive AttemptRes where
  | broke (extracted : ExtractedProblem)
  | cont (extractedText : Option ExtractedProblem)
  | thrown (msg : String)

/-- Emissions, verification count and outcome of one loop iteration. -/
structure StepOut where
  emits : List WorkflowState
  nVer : Nat
  res : AttemptRes

/-- One iteration of the `for (attempt = 1; attempt <= 3; attempt++)`
loop (`agentWorkflow.ts` lines 84–103).  An extraction throw is swallowed
unless `attempt === 3`; a successful extraction is always followed by one
verification; `false` verification on attempt 3 throws
`文本提取验证失败，已达到最大重试次数` (rethrown by the `catch`); otherwise the
retry status `40 + attempt * 5` is emitted and the loop continues with
`extractedText` holding the (unverified) extraction. -/
def attemptStep (attempt : Nat) (exr : Except String ExtractedProblem) (isValid : Bool)
    (extractedText : Option ExtractedProblem) : StepOut :=
  match exr with
  | .error msg =>
    if attempt = 3 then ⟨[], 0, .thrown msg⟩ else ⟨[], 0, .cont extractedText⟩
  | .ok extracted =>
    let verifyEmit := updateStatus "验证提取结果..." 50
      ("第" ++ toString attempt ++ "次验证提取的文本内容")
    if isValid then ⟨[verifyEmit], 1, .broke extracted⟩
    else if attempt = 3 then
      ⟨[verifyEmit], 1, .thrown "文本提取验证失败，已达到最大重试次数"⟩
    else
      ⟨[verifyEmit,
        updateStatus "重新提取文本..." (40 + attempt * 5)
          ("第" ++ toString attempt ++ "次提取失败，正在重试")],
       1, .cont (some extracted)⟩

/-- Emissions, extraction/verification call counts and final outcome of
the whole extraction/verification loop.  `result = .ok none` is the
(unreachable) fall-through with a null `extractedText`;
`.ok (some e)` means the loop settled on `e`. -/
structure LoopOut where
  emits : List WorkflowState
  nExt : Nat
  nVer : Nat
  result : Except String (Option ExtractedProblem)

/-- The three-attempt extraction/verification loop of
`executeCodingWorkflow` (`agentWorkflow.ts` lines 83–103), unrolled.
`ext a` is the outcome of the attempt-`a` extraction call, `ver a` the
boolean the verifier returns on attempt `a` (the verifier itself never
throws, see `verifyExtractedText`). -/
def extractVerifyLoop (ext : Nat → Except String ExtractedProblem) (ver : Nat → Bool) : LoopOut :=
  let s1 := attemptStep 1 (ext 1) (ver 1) none
  match s1.res with
  | .broke e => ⟨s1.emits, 1, s1.nVer, .ok (some e)⟩
  | .thrown m => ⟨s1.emits, 1, s1.nVer, .error m⟩
  | .cont l1 =>
    let s2 := attemptStep 2 (ext 2) (ver 2) l1
    match s2.res with
    | .broke e => ⟨s1.emits ++ s2.emits, 2, s1.nVer + s2.nVer, .ok (some e)⟩
    | .thrown m => ⟨s1.emits ++ s2.emits, 2, s1.nVer + s2.nVer, .error m⟩
    | .cont l2 =>
      let s3 := attemptStep 3 (ext 3) (ver 3) l2
      match s3.res with
      | .broke e =>
        ⟨s1.emits ++ s2.emits ++ s3.emits, 3, s1.nVer + s2.nVer + s3.nVer, .ok (some e)⟩
      | .thrown m =>
        ⟨s1.emits ++ s2.emits ++ s3.emits, 3, s1.nVer + s2.nVer + s3.nVer, .error m⟩
      | .cont l3 =>
        ⟨s1.emits ++ s2.emits ++ s3.emits, 3, s1.nVer + s2.nVer + s3.nVer, .ok l3⟩

/-- One element of the general-branch result array
(`agentWorkflow.ts` lines 143–152); the opaque `data` payload of
`processScreenshots` is modelled as a string. -/
structure GeneralEntry where
  model : String
  ok : Bool
  data : Option String
  error : Option String
  index : Nat

/-- The `data` field of a `WorkflowResult`: the coding branch returns the
selected payload tagged `responseType: 'code'`
(`agentWorkflow.ts` lines 122–125), the general branch returns
`{pro: true, results}` (line 158). -/
inductive ResultData where
  | code (payload : SelData)
  | general (results : List GeneralEntry)

/-- Shape of `selectedResult` in a `WorkflowResult` (`agentWorkflow.ts` lines 19–22). -/
structure SelectedInfo where
  index : Nat
  reason : String

/-- Embedding of `WorkflowResult` (`agentWorkflow.ts` lines 15–23). -/
structure WorkflowResult where
  success : Bool
  data : Option ResultData
  error : Option String
  selectedResult : Option SelectedInfo

/-- Embedding of `AgentWorkflow.executeCodingWorkflow` (`agentWorkflow.ts` lines
79–135): emit 30%, run the extraction/verification loop, then (on a
verified statement) emit 70%, fan out generation, emit 90%, select, emit
100% and return `success: true`.  A loop throw (or the null
`extractedText` guard of lines 105–107) propagates as `.error`. -/
def executeCodingWorkflow (ext : Nat → Except String ExtractedProblem) (ver : Nat → Bool)
    (mos : Nat → ModelOutcome) : List WorkflowState × Except String WorkflowResult :=
  let em0 := updateStatus "文本提取中..." 30 "从图片中提取题目文本和例子"
  let L := extractVerifyLoop ext ver
  match L.result with
  | .error m => (em0 :: L.emits, .error m)
  | .ok none => (em0 :: L.emits, .error "无法提取有效的问题文本")
  | .ok (some extractedText) =>
    let em1 := updateStatus "生成代码解决方案..." 70 "并发调用3个模型生成解决方案"
    let solutions := generateCodeSolutions extractedText mos
    let em2 := updateStatus "选择最佳解决方案..." 90 "根据成功率和优先级选择结果"
    let bestSolution := selectBestCodeSolution solutions
    let em3 := updateStatus "完成" 100 "工作流执行完成"
    (em0 :: L.emits ++ [em1, em2, em3],
     .ok ⟨true, some (.code bestSolution.data), none,
          some ⟨bestSolution.index, bestSolution.reason⟩⟩)

/-- Embedding of `AgentWorkflow.executeGeneralWorkflow` (`agentWorkflow.ts` lines
138–160): emit 50%, fan out three direct calls (each `catch` converts a
throw into an `ok: false` entry), emit 100%, return `success: true`. -/
def executeGeneralWorkflow (gens : Nat → Except String String) :
    List WorkflowState × WorkflowResult :=
  let em1 := updateStatus "并发处理中..." 50 "同时调用3个模型处理普通问题"
  let results := (List.range 3).map (fun index =>
    match gens index with
    | .ok data => (⟨"openai/gpt-5-chat", true, some data, none, index⟩ : GeneralEntry)
    | .error e => (⟨"openai/gpt-5-chat", false, none, some (jsOr (some e) "error"), index⟩ : GeneralEntry))
  let em2 := updateStatus "完成" 100 "普通问题处理完成"
  ([em1, em2], ⟨true, some (.general results), none, none⟩)

/-- Embedding of `AgentWorkflow.executeProWorkflow` (`agentWorkflow.ts` lines 58–76):
emit 10%, classify, dispatch on the branch; any escaped exception is
caught and returned as `success: false` with
`error?.message || '工作流执行失败'` — with no further emission.
Inputs: `cresp` is the classifier's model-call outcome, `ext a`/`ver a`
the attempt-`a` extraction outcome and verification boolean, `mos i` the
slot-`i` generation outcome, `gens i` the slot-`i` general-branch
outcome. -/
def executeProWorkflow (cresp : Except String (Option String))
    (ext : Nat → Except String ExtractedProblem) (ver : Nat → Bool)
    (mos : Nat → ModelOutcome) (gens : Nat → Except String String) :
    List WorkflowState × WorkflowResult :=
  let em0 := updateStatus "问题分类中..." 10 "正在分析问题类型"
  match classifyQuestion cresp with
  | .coding =>
    match executeCodingWorkflow ext ver mos with
    | (ems, .ok r) => (em0 :: ems, r)
    | (ems, .error m) => (em0 :: ems, ⟨false, none, some (jsOr (some m) "工作流执行失败"), none⟩)
  | .general =>
    let (ems, r) := executeGeneralWorkflow gens
    (em0 :: ems, r)

/-! ## Concrete fixtures used by witnesses and counterexamples -/

/-- A concrete extracted problem with the single example `5 ↦ 120`. -/
def factorialProblem : ExtractedProblem :=
  ⟨"Factorial", "Given n, print n!.", [⟨"5", "120", none⟩], none, none⟩

/-- A well-formed generation response whose `code` field is a correct
factorial implementation. -/
def factorialSolutionJson : Json :=
  .obj [("approach", .str "Multiply 1..n."),
        ("code", .str "import sys\nn=int(sys.stdin.read())\nr=1\nfor i in range(2,n+1):r*=i\nprint(r)"),
        ("timeComplexity", .str "O(n)"),
        ("spaceComplexity", .str "O(1)")]

/-- Slot outcomes: slot 0 answers with the factorial solution, the other
slots fail with a transport error. -/
def factorialOutcomes : Nat → ModelOutcome := fun i =>
  if i = 0 then .resp (some "\x7b\x7d") (some factorialSolutionJson) else .err "boom"

/-- Extraction succeeds with `factorialProblem` on every attempt. -/
def extAlwaysOk : Nat → Except String ExtractedProblem := fun _ => .ok factorialProblem

/-- Verification succeeds on every attempt. -/
def verAlwaysTrue : Nat → Bool := fun _ => true

/-- Verification fails on every attempt. -/
def verAlwaysFalse : Nat → Bool := fun _ => false

/-- Verification fails exactly on the first attempt. -/
def verFalseThenTrue : Nat → Bool := fun a => a != 1

/-- A classifier response that normalizes to `coding`. -/
def crespCoding : Except String (Option String) := .ok (some "coding")

/-- General-branch outcomes (unused by the coding branch). -/
def gensAllOk : Nat → Except String String := fun _ => .ok "answer"

/-- The parsed object used in the C9 witness: well-formed but with a
non-array `examples` field (absent). -/
def wExtractObj : Json := .obj [("title", .str "T"), ("description", .str "D")]

/-- Concrete candidate list for the C2 witness: slot 0 failed, slot 1
succeeded. -/
def wSols : List CodeSolution :=
  [⟨false, none, some "boom", 0⟩, ⟨true, some ⟨Json.null, none⟩, none, 1⟩]

/-- Boolean check that a list of naturals is non-decreasing. -/
def nonDecr : List Nat → Bool
  | [] => true
  | [_] => true
  | a :: b :: rest => decide (a ≤ b) && nonDecr (b :: rest)

/-! ## C7 — classifier fail-safe defaulting -/

/-- C7: the classifier absorbs every anomaly: a transport error, missing
content, and any content whose normalized form is neither `coding` nor
`general` all yield `coding`; in particular `"maybe"` yields `coding`.
(It never throws: `classifyQuestion` is total by construction.) -/
theorem classifier_defaults_to_coding (resp : Except String (Option String)) :
    (∀ m, resp = .error m → classifyQuestion resp = .coding) ∧
    (resp = .ok none → classifyQuestion resp = .coding) ∧
    (∀ s, resp = .ok (some s) → jsNormalize s ≠ "coding" → jsNormalize s ≠ "general" →
      classifyQuestion resp = .coding) ∧
    classifyQuestion (.ok (some "maybe")) = .coding := by
  refine ⟨fun m hm => ?_, fun h => ?_, fun s hs h1 h2 => ?_, ?_⟩
  · subst hm; rfl
  · subst h; rfl
  · subst hs
    simp only [classifyQuestion, Option.map_some]
    rw [if_neg, if_neg] <;> simp [h1, h2]
  · decide

/-- Witness for C7: the ambiguous response `"maybe"` classifies as
`coding`. -/
theorem classifier_defaults_to_coding_witness :
    classifyQuestion (.ok (some "maybe")) = .coding :=
  (classifier_defaults_to_coding (.ok (some "maybe"))).2.2.1 "maybe" rfl
    (by decide) (by decide)

/-! ## C8 — verifier never fails, biased to `false` -/

/-- C8: the verifier always returns a boolean (it is total by
construction); it returns `true` exactly when the model response carries
content normalizing to the token `"true"`, and a thrown/transport error
yields `false`. -/
theorem verifier_total_and_conservative (resp : Except String (Option String)) :
    (verifyExtractedText resp = true ↔
      ∃ s, resp = .ok (some s) ∧ jsNormalize s = "true") ∧
    (∀ m, resp = .error m → verifyExtractedText resp = false) := by
  constructor
  · constructor
    · intro h
      match resp with
      | .error m => simp [verifyExtractedText] at h
      | .ok none => simp [verifyExtractedText] at h
      | .ok (some s) =>
        refine ⟨s, rfl, ?_⟩
        by_contra hne
        simp only [verifyExtractedText, Option.map_some] at h
        rw [if_neg (by simpa using hne)] at h
        split at h <;> simp_all
    · rintro ⟨s, rfl, hs⟩
      simp [verifyExtractedText, hs]
  · rintro m rfl; rfl

/-- Witness for C8: a transport failure degrades to `false`. -/
theorem verifier_total_and_conservative_witness :
    verifyExtractedText (.error "network down") = false :=
  (verifier_total_and_conservative (.error "network down")).2 "network down" rfl


/-! ## C9 — extractor validation and normalization -/

/-- Value of `Except.isOk` on a success. -/
theorem isOk_ok (x : Json) : (Except.ok x : Except String Json).isOk = true := rfl

/-- Value of `Except.isOk` on a failure. -/
theorem isOk_error (m : String) : (Except.error m : Except String Json).isOk = false := rfl

/-- Removing entries for a different key does not change a lookup. -/
theorem lookup_filter_ne (k k' : String) (hk : k ≠ k') (fields : List (String × Json)) :
    (fields.filter (fun kv => kv.1 != k')).lookup k = fields.lookup k := by
  induction fields with
  | nil => rfl
  | cons a tl ih =>
    obtain ⟨ak, av⟩ := a
    by_cases ha : ak = k'
    · have h1 : ((ak, av).1 != k') = false := by simp [ha]
      have h2 : (k == ak) = false := by simp [ha ▸ hk]
      simp [List.filter_cons, h1, List.lookup, h2, ih]
    · have h1 : ((ak, av).1 != k') = true := by simp [ha]
      cases hka : (k == ak) with
      | false => simp [List.filter_cons, h1, List.lookup, hka, ih]
      | true => simp [List.filter_cons, h1, List.lookup, hka]

/-- After `jSet j k v`, looking up `k` yields `v` (object case). -/
theorem jGet_jSet_self (fields : List (String × Json)) (k : String) (v : Json) :
    jGet (jSet (.obj fields) k v) k = some v := by
  simp [jSet, jGet, List.lookup]

/-- After `jSet j k' v`, looking up a different key is unchanged
(object case). -/
theorem jGet_jSet_ne (fields : List (String × Json)) (k k' : String) (v : Json)
    (h : k ≠ k') : jGet (jSet (.obj fields) k' v) k = jGet (.obj fields) k := by
  have hne : (k == k') = false := by simp [h]
  simp only [jSet, jGet, List.lookup, hne]
  exact lookup_filter_ne k k' h fields

/-- Success cases of the extractor, characterized: the input carried
non-empty content that parsed to an object with truthy `title` and
`description`, and the result is that object, with `examples` replaced by
`[]` unless it already was an array. -/
theorem extractProblemText_ok_characterization (mo : ModelOutcome) (r : Json)
    (h : extractProblemText mo = .ok r) :
    ∃ raw s j, mo = .resp raw (some j) ∧ raw = some s ∧ jsTrim s ≠ "" ∧
      truthyOpt (jGet j "title") = true ∧ truthyOpt (jGet j "description") = true ∧
      ((∃ l, jGet j "examples" = some (.arr l)) ∧ r = j ∨
       (¬ ∃ l, jGet j "examples" = some (.arr l)) ∧ r = jSet j "examples" (.arr [])) := by
  match mo with
  | .err m => simp [extractProblemText] at h
  | .resp none parsed => simp [extractProblemText] at h
  | .resp (some s) parsed =>
    simp only [extractProblemText, Option.map] at h
    by_cases hs : jsTrim s = ""
    · rw [if_pos hs] at h; exact absurd h (by simp)
    · rw [if_neg hs] at h
      match parsed with
      | none => simp at h
      | some j =>
        simp only at h
        by_cases ht : (truthyOpt (jGet j "title") && truthyOpt (jGet j "description")) = true
        · rw [if_pos ht] at h
          rw [Bool.and_eq_true] at ht
          obtain ⟨ht1, ht2⟩ := ht
          refine ⟨some s, s, j, rfl, rfl, hs, ht1, ht2, ?_⟩
          rcases hx : jGet j "examples" with _ | jv
          · right
            rw [hx] at h
            injection h with h
            refine ⟨?_, h.symm⟩
            rintro ⟨l, hl⟩
            exact absurd hl (by simp)
          · match jv with
            | .arr l =>
              rw [hx] at h
              injection h with h
              exact Or.inl ⟨⟨l, rfl⟩, h.symm⟩
            | .null | .bool _ | .num _ | .str _ | .obj _ =>
              rw [hx] at h
              injection h with h
              refine Or.inr ⟨?_, h.symm⟩
              rintro ⟨l, hl⟩
              exact absurd hl (by simp)
        · rw [if_neg ht] at h
          exact absurd h (by simp)

/-- A `Json` value with a truthy field is an object. -/
theorem truthy_field_is_obj (j : Json) (k : String) (ht : truthyOpt (jGet j k) = true) :
    ∃ fields, j = Json.obj fields := by
  match j with
  | .obj fields => exact ⟨fields, rfl⟩
  | .null | .bool _ | .num _ | .str _ | .arr _ => simp [jGet, truthyOpt] at ht

/-- C9: the extractor fails exactly when the model result is a thrown
error, has empty/missing content, is not parseable JSON, or has a falsy
(`undefined`/empty) `title` or `description`; on success `title` and
`description` are truthy — in particular non-empty when they are strings
— and the `examples` field of the returned object is always an array,
having been replaced by `[]` when it was absent or not an array. -/
theorem extractor_validation :
    (∀ m, extractProblemText (.err m) = .error ("文本提取失败: " ++ m)) ∧
    (∀ raw parsed, ((extractProblemText (.resp raw parsed)).isOk = true ↔
        ∃ s j, raw = some s ∧ jsTrim s ≠ "" ∧ parsed = some j ∧
          truthyOpt (jGet j "title") = true ∧ truthyOpt (jGet j "description") = true)) ∧
    (∀ mo r, extractProblemText mo = .ok r →
        truthyOpt (jGet r "title") = true ∧ truthyOpt (jGet r "description") = true ∧
        (∀ s, jGet r "title" = some (.str s) → s ≠ "") ∧
        (∀ s, jGet r "description" = some (.str s) → s ≠ "") ∧
        ∃ l, jGet r "examples" = some (.arr l)) ∧
    (∀ raw j r, extractProblemText (.resp raw (some j)) = .ok r →
        (¬ (∃ l, jGet j "examples" = some (.arr l)) → jGet r "examples" = some (.arr []))) := by
  refine ⟨fun m => rfl, fun raw parsed => ⟨?_, ?_⟩, fun mo r h => ?_, fun raw j r h hnotarr => ?_⟩
  · intro h
    rcases hr : extractProblemText (.resp raw parsed) with m | r
    · rw [hr, isOk_error] at h; exact absurd h (by simp)
    · rcases extractProblemText_ok_characterization _ r hr with
        ⟨raw', s, j, heq, hraw, hs, ht1, ht2, _⟩
      obtain ⟨h1, h2⟩ := ModelOutcome.resp.inj heq
      exact ⟨s, j, h1.trans hraw, hs, h2, ht1, ht2⟩
  · rintro ⟨s, j, rfl, hs, rfl, ht1, ht2⟩
    simp only [extractProblemText, Option.map]
    rw [if_neg hs]
    simp only [ht1, ht2, Bool.and_self, if_pos]
    rcases hx : jGet j "examples" with _ | jv
    · exact isOk_ok _
    · match jv with
      | .arr l => exact isOk_ok _
      | .null | .bool _ | .num _ | .str _ | .obj _ => exact isOk_ok _
  · rcases extractProblemText_ok_characterization mo r h with
      ⟨raw, s, j, heq, hraw, hs, ht1, ht2, hcase⟩
    rcases truthy_field_is_obj j "title" ht1 with ⟨fields, rfl⟩
    have hstr : ∀ (v : Option Json), truthyOpt v = true →
        ∀ t, v = some (.str t) → t ≠ "" := by
      rintro v hv t rfl
      simp only [truthyOpt, jsTruthy] at hv
      simpa using hv
    rcases hcase with ⟨⟨l, hl⟩, rfl⟩ | ⟨hnot, rfl⟩
    · exact ⟨ht1, ht2, hstr _ ht1, hstr _ ht2, l, hl⟩
    · have g1 : jGet (jSet (.obj fields) "examples" (.arr [])) "title"
          = jGet (.obj fields) "title" :=
        jGet_jSet_ne fields "title" "examples" (.arr []) (by decide)
      have g2 : jGet (jSet (.obj fields) "examples" (.arr [])) "description"
          = jGet (.obj fields) "description" :=
        jGet_jSet_ne fields "description" "examples" (.arr []) (by decide)
      rw [g1, g2]
      exact ⟨ht1, ht2, hstr _ ht1, hstr _ ht2, [],
        jGet_jSet_self fields "examples" (.arr [])⟩
  · rcases extractProblemText_ok_characterization _ r h with
      ⟨raw', s, j', heq, hraw, hs, ht1, ht2, hcase⟩
    obtain ⟨h1, h2⟩ := ModelOutcome.resp.inj heq
    obtain h3 := Option.some.inj h2
    subst h3
    rcases truthy_field_is_obj j "title" ht1 with ⟨fields, rfl⟩
    rcases hcase with ⟨harr, rfl⟩ | ⟨_, rfl⟩
    · exact absurd harr hnotarr
    · exact jGet_jSet_self fields "examples" (.arr [])


/-- Witness for C9: a well-formed response whose `examples` field is
absent succeeds with `examples` normalized to `[]`. -/
theorem extractor_validation_witness :
    jGet ((extractProblemText (.resp (some "x") (some wExtractObj))).toOption.getD .null)
      "examples" = some (.arr []) := by
  have hnot : ¬ ∃ l, jGet wExtractObj "examples" = some (.arr l) := by
    rintro ⟨l, hl⟩
    simp [wExtractObj, jGet, List.lookup] at hl
  have h := extractor_validation.2.2.2 (some "x") wExtractObj
    (jSet wExtractObj "examples" (.arr [])) (by rfl) hnot
  exact h

/-! ## C2 and C10 — selection policy -/

/-- Lemma: `find?` on the `ok` flag returns the element at the first `ok`
position; everything before it is not `ok`. -/
theorem find_ok_spec (l : List CodeSolution) (s : CodeSolution)
    (h : l.find? (fun sol => sol.ok) = some s) :
    ∃ i, i < l.length ∧ l.getD i dfltSol = s ∧
      ∀ j, j < i → (l.getD j dfltSol).ok = false := by
  induction l with
  | nil => simp [List.find?] at h
  | cons a tl ih =>
    rcases ha : a.ok with _ | _
    · rw [List.find?_cons_of_neg _ (by simp [ha])] at h
      rcases ih h with ⟨i, hi, hgot, hbefore⟩
      refine ⟨i + 1, by simpa using hi, by simpa using hgot, ?_⟩
      intro j hj
      match j with
      | 0 => simpa using ha
      | j' + 1 => simpa using hbefore j' (by omega)
    · rw [List.find?_cons_of_pos _ (by simp [ha])] at h
      injection h with h
      exact ⟨0, by simp, by simpa using h, by omega⟩

/-- If no element is `ok`, `find?` on the `ok` flag returns `none`. -/
theorem find_ok_none (l : List CodeSolution)
    (h : ∀ i, i < l.length → (l.getD i dfltSol).ok = false) :
    l.find? (fun sol => sol.ok) = none := by
  rw [List.find?_eq_none]
  intro x hx
  rcases List.mem_iff_getElem.mp hx with ⟨i, hi, rfl⟩
  have := h i hi
  rw [List.getD_eq_getElem l dfltSol hi] at this
  simp [this]

/-- C2: selection policy.  For a candidate list whose entries carry their
own slot index (as `generateCodeSolutions` produces) and whose successful
entries carry data: if some candidate succeeded, `selectBestCodeSolution`
returns the lowest-indexed successful candidate's data tagged with its
slot; if none succeeded, it returns the synthesized failure payload
(approach/code an error string, complexities `"N/A"`) tagged with slot 0.
Moreover, whenever the coding branch completes (reaches selection), the
run result has `success = true`. -/
theorem selection_lowest_index_success :
    (∀ sols : List CodeSolution,
      (∀ i, i < sols.length → (sols.getD i dfltSol).index = i) →
      (∀ i, i < sols.length → (sols.getD i dfltSol).ok = true →
        ((sols.getD i dfltSol).data).isSome = true) →
      ((∃ i, i < sols.length ∧ (sols.getD i dfltSol).ok = true) →
        (selectBestCodeSolution sols).index < sols.length ∧
        (sols.getD (selectBestCodeSolution sols).index dfltSol).ok = true ∧
        (∀ j, j < (selectBestCodeSolution sols).index → (sols.getD j dfltSol).ok = false) ∧
        (∃ d, (sols.getD (selectBestCodeSolution sols).index dfltSol).data = some d ∧
          (selectBestCodeSolution sols).data = SelData.sol d)) ∧
      ((∀ i, i < sols.length → (sols.getD i dfltSol).ok = false) →
        selectBestCodeSolution sols =
          ⟨SelData.synth "代码生成失败"
             ("错误: " ++ jsOr (sols.head?.bind CodeSolution.error) "所有解决方案都失败") "N/A" "N/A",
           0, "所有解决方案都失败，返回错误信息"⟩)) ∧
    (∀ ext ver mos r, (executeCodingWorkflow ext ver mos).2 = .ok r → r.success = true) := by
  constructor
  · intro sols hidx hdata
    refine ⟨?_, ?_⟩
    · rintro ⟨i, hi, hok⟩
      rcases hfind : sols.find? (fun sol => sol.ok) with _ | s
      · exfalso
        have hmem : sols.getD i dfltSol ∈ sols := by
          rw [List.getD_eq_getElem sols dfltSol hi]
          exact List.getElem_mem hi
        have hfalse := List.find?_eq_none.mp hfind _ hmem
        exact absurd hok (by simpa using hfalse)
      · rcases find_ok_spec sols s hfind with ⟨i0, hi0, hgot, hbefore⟩
        have hsok : s.ok = true := by simpa using List.find?_some hfind
        have hsdata : s.data.isSome = true := by
          have hd := hdata i0 hi0
          rw [hgot] at hd
          exact hd hsok
        rcases Option.isSome_iff_exists.mp hsdata with ⟨d, hd⟩
        have hsidx : s.index = i0 := by
          have h := hidx i0 hi0
          rw [hgot] at h
          exact h
        have hsel : selectBestCodeSolution sols =
            ⟨SelData.sol d, s.index,
             "选择第" ++ toString (s.index + 1) ++ "个解决方案：执行成功且ID最靠前"⟩ := by
          rw [selectBestCodeSolution, hfind]
          simp only [hd]
        rw [hsel, hsidx]
        refine ⟨hi0, ?_, hbefore, d, ?_, rfl⟩
        · rw [hgot]; exact hsok
        · rw [hgot]; exact hd
    · intro hall
      rw [selectBestCodeSolution, find_ok_none sols hall]
      rfl
  · intro ext ver mos r h
    rw [executeCodingWorkflow] at h
    rcases hL : (extractVerifyLoop ext ver).result with m | oe
    · rw [hL] at h; simp at h
    · match oe with
      | none => rw [hL] at h; simp at h
      | some e =>
        rw [hL] at h
        simp only [Except.ok.injEq] at h
        rw [← h]


/-- Witness for C2: on `wSols` the selection picks slot 1, the lowest
successful index. -/
theorem selection_lowest_index_success_witness :
    (selectBestCodeSolution wSols).index < wSols.length ∧
    (wSols.getD (selectBestCodeSolution wSols).index dfltSol).ok = true ∧
    (∀ j, j < (selectBestCodeSolution wSols).index → (wSols.getD j dfltSol).ok = false) ∧
    (∃ d, (wSols.getD (selectBestCodeSolution wSols).index dfltSol).data = some d ∧
      (selectBestCodeSolution wSols).data = SelData.sol d) :=
  (selection_lowest_index_success.1 wSols (by decide) (by decide)).1
    ⟨1, by decide, by decide⟩

/-- C10: `selectBestCodeSolution` is total on every all-failed candidate
list (the empty list included): it returns the synthesized failure
payload tagged with index 0, with the error message taken from
`solutions[0]?.error` or the fallback text. -/
theorem selection_total_on_failures (sols : List CodeSolution)
    (h : ∀ s ∈ sols, s.ok = false) :
    selectBestCodeSolution sols =
      ⟨SelData.synth "代码生成失败"
         ("错误: " ++ jsOr (sols.head?.bind CodeSolution.error) "所有解决方案都失败") "N/A" "N/A",
       0, "所有解决方案都失败，返回错误信息"⟩ := by
  have hfind : sols.find? (fun sol => sol.ok) = none := by
    rw [List.find?_eq_none]
    intro x hx
    simp [h x hx]
  rw [selectBestCodeSolution, hfind]
  rfl

/-- Witness for C10: on the empty list the selection still returns the
synthesized failure payload with the fallback message. -/
theorem selection_total_on_failures_witness :
    selectBestCodeSolution [] =
      ⟨SelData.synth "代码生成失败" ("错误: " ++ "所有解决方案都失败") "N/A" "N/A",
       0, "所有解决方案都失败，返回错误信息"⟩ :=
  selection_total_on_failures [] (by intro s hs; cases hs)

/-! ## C5 and C6 — generation fan-out and the test placeholder -/

/-- Every slot of the fan-out settles in a terminal state carrying its
own index: success with data and no error, or failure with a captured
error message and no data. -/
theorem slotRun_terminal (p : ExtractedProblem) (mo : ModelOutcome) (i : Nat) :
    ((slotRun p mo i).1.index = i) ∧
    (((slotRun p mo i).1.ok = true ∧ ((slotRun p mo i).1.data).isSome = true ∧
        (slotRun p mo i).1.error = none) ∨
     ((slotRun p mo i).1.ok = false ∧ (slotRun p mo i).1.data = none ∧
        ((slotRun p mo i).1.error).isSome = true)) := by
  rcases hg : generateSingleSolution p mo with e | d
  · simp [slotRun, hg, jsOr]
  · rcases hc : computeTestsPassed d with e2 | n <;> simp [slotRun, hg, hc, jsOr]

/-- C6: the generation fan-out always returns exactly three candidates;
the candidate in slot `i` carries index `i` and is terminal — either
`ok` with data and no error, or failed with a captured error message —
no matter how the three model calls end.  (No exception crosses the
fan-out boundary: the embedding is a total function.) -/
theorem fanout_exactly_three_terminal (p : ExtractedProblem) (mos : Nat → ModelOutcome) :
    (generateCodeSolutions p mos).length = 3 ∧
    ∀ i, i < 3 →
      ((generateCodeSolutions p mos).getD i dfltSol).index = i ∧
      ((((generateCodeSolutions p mos).getD i dfltSol).ok = true ∧
        (((generateCodeSolutions p mos).getD i dfltSol).data).isSome = true ∧
        ((generateCodeSolutions p mos).getD i dfltSol).error = none) ∨
       (((generateCodeSolutions p mos).getD i dfltSol).ok = false ∧
        ((generateCodeSolutions p mos).getD i dfltSol).data = none ∧
        (((generateCodeSolutions p mos).getD i dfltSol).error).isSome = true)) := by
  constructor
  · simp [generateCodeSolutions]
  · intro i hi
    have hgd : (generateCodeSolutions p mos).getD i dfltSol = (slotRun p (mos i) i).1 := by
      interval_cases i <;> rfl
    rw [hgd]
    exact slotRun_terminal p (mos i) i

/-- Witness for C6: with the factorial fixtures (one good response, two
transport errors) the fan-out still yields three candidates and slot 1
carries index 1. -/
theorem fanout_exactly_three_terminal_witness :
    (generateCodeSolutions factorialProblem factorialOutcomes).length = 3 ∧
    ((generateCodeSolutions factorialProblem factorialOutcomes).getD 1 dfltSol).index = 1 :=
  ⟨(fanout_exactly_three_terminal factorialProblem factorialOutcomes).1,
   ((fanout_exactly_three_terminal factorialProblem factorialOutcomes).2 1 (by decide)).1⟩

/-- A successful generation for a problem with examples carries the
placeholder test entries (no `ok` verdicts), because `runTests` does not
execute code. -/
theorem genSingle_tests_placeholder (p : ExtractedProblem) (mo : ModelOutcome)
    (d : SolutionData) (h : generateSingleSolution p mo = .ok d)
    (hex : 0 < p.examples.length) :
    ∃ entries, d.tests = some entries ∧ ∀ e ∈ entries, e.ok = none := by
  match mo with
  | .err m => simp [generateSingleSolution] at h
  | .resp none parsed => simp [generateSingleSolution] at h
  | .resp (some s) parsed =>
    simp only [generateSingleSolution, Option.map] at h
    by_cases hs : jsTrim s = ""
    · rw [if_pos hs] at h; exact absurd h (by simp)
    · rw [if_neg hs] at h
      match parsed with
      | none => simp at h
      | some j =>
        simp only at h
        by_cases ht : (truthyOpt (jGet j "approach") && truthyOpt (jGet j "code")
            && truthyOpt (jGet j "timeComplexity") && truthyOpt (jGet j "spaceComplexity")) = true
        · rw [if_pos ht, if_pos hex] at h
          injection h with h
          refine ⟨runTests ((jGet j "code").getD .null) p.examples, by rw [← h], ?_⟩
          intro e he
          rcases List.mem_map.mp he with ⟨ex, _, rfl⟩
          rfl
        · rw [if_neg ht] at h
          exact absurd h (by simp)

/-- C5 (amended): `runTests` is a placeholder — it maps each example to
an entry with `actual` and `ok` undefined and executes nothing — so for
every problem with at least one example, every settled task reports
`testsPassed = 0` (regardless of the generated code) while `testsTotal`
is the example count. -/
theorem tests_placeholder_semantics :
    (∀ code examples, runTests code examples =
      examples.map (fun ex => ⟨ex.input, ex.output, none, none⟩)) ∧
    (∀ p mos, 0 < p.examples.length →
      ∀ t ∈ generateCodeTasks p mos, t.testsPassed = 0 ∧ t.testsTotal = p.examples.length) := by
  refine ⟨fun code examples => rfl, fun p mos hex t ht => ?_⟩
  simp only [generateCodeTasks, List.mem_map, List.mem_range] at ht
  rcases ht with ⟨i, hi, rfl⟩
  rcases hg : generateSingleSolution p (mos i) with e | d
  · simp [slotRun, hg]
  · rcases genSingle_tests_placeholder p (mos i) d hg hex with ⟨entries, hte, hok⟩
    have hfilter : entries.filter (fun t => match t.ok with
        | some true => true
        | _ => false) = [] := by
      rw [List.filter_eq_nil_iff]
      intro a ha
      rw [hok a ha]
      simp
    have hcount : computeTestsPassed d = .ok 0 := by
      rw [computeTestsPassed, hte]
      simp [hfilter]
    simp [slotRun, hg, hcount]

/-- Witness for C5 (amended): with the factorial fixtures, slot 0
succeeds and reports `testsPassed = 0`, `testsTotal = 1`. -/
theorem tests_placeholder_semantics_witness :
    ((generateCodeTasks factorialProblem factorialOutcomes).getD 0 dfltTask).testsPassed = 0 ∧
    ((generateCodeTasks factorialProblem factorialOutcomes).getD 0 dfltTask).testsTotal = 1 := by
  have h := tests_placeholder_semantics.2 factorialProblem factorialOutcomes (by decide)
    ((generateCodeTasks factorialProblem factorialOutcomes).getD 0 dfltTask)
    (by rw [List.getD_eq_getElem _ _ (by decide)]; exact List.getElem_mem (by decide))
  exact h

/-- Counterexample for C5 as stated: a run of the generator on the
problem `examples = [{input: "5", output: "120"}]` with a candidate whose
generated code is a correct factorial implementation settles slot 0 as
`success` with `testsPassed = 0` and `testsTotal = 1` — not
`testsPassed = 1` — because `runTests` never executes the code. -/
theorem tests_counted_counterexample :
    ((generateCodeTasks factorialProblem factorialOutcomes).getD 0 dfltTask).status
        = TaskStatus.success ∧
    ((generateCodeTasks factorialProblem factorialOutcomes).getD 0 dfltTask).testsTotal = 1 ∧
    ((generateCodeTasks factorialProblem factorialOutcomes).getD 0 dfltTask).testsPassed = 0 ∧
    ¬ ((generateCodeTasks factorialProblem factorialOutcomes).getD 0 dfltTask).testsPassed = 1 :=
  ⟨rfl, rfl, rfl, by decide⟩

/-! ## C1, C3, C4 — orchestrator loop, progress and termination -/


/-- Facts about the extraction/verification loop, by exhaustive case
analysis over the three attempts: the loop performs at most 3 extraction
calls and at most 3 verification checks; a settled statement was
extracted and verified on one of the attempts; the loop never falls
through with a null statement; and an attempt-3 extraction followed by a
`false` attempt-3 verification always throws. -/
theorem loop_facts (ext : Nat → Except String ExtractedProblem) (ver : Nat → Bool) :
    (extractVerifyLoop ext ver).nExt ≤ 3 ∧
    (extractVerifyLoop ext ver).nVer ≤ 3 ∧
    (∀ e, (extractVerifyLoop ext ver).result = .ok (some e) →
      (ext 1 = .ok e ∧ ver 1 = true) ∨ (ext 2 = .ok e ∧ ver 2 = true) ∨
      (ext 3 = .ok e ∧ ver 3 = true)) ∧
    ((extractVerifyLoop ext ver).result = .ok none → False) ∧
    (∀ e, ext 3 = .ok e → ver 3 = false → (extractVerifyLoop ext ver).nExt = 3 →
      ∃ m, (extractVerifyLoop ext ver).result = .error m) := by
  rcases h1 : ext 1 with m1 | e1 <;> cases hv1 : ver 1 <;>
    rcases h2 : ext 2 with m2 | e2 <;> cases hv2 : ver 2 <;>
      rcases h3 : ext 3 with m3 | e3 <;> cases hv3 : ver 3 <;>
        simp_all [extractVerifyLoop, attemptStep]

/-- The three possible shapes of the coding-branch outcome, keyed on the
loop result. -/
theorem executeCodingWorkflow_result (ext : Nat → Except String ExtractedProblem)
    (ver : Nat → Bool) (mos : Nat → ModelOutcome) :
    (∃ m, (extractVerifyLoop ext ver).result = .error m ∧
       (executeCodingWorkflow ext ver mos).2 = .error m) ∨
    ((extractVerifyLoop ext ver).result = .ok none ∧
       (executeCodingWorkflow ext ver mos).2 = .error "无法提取有效的问题文本") ∨
    (∃ e, (extractVerifyLoop ext ver).result = .ok (some e) ∧
       (executeCodingWorkflow ext ver mos).2 =
         .ok ⟨true, some (.code (selectBestCodeSolution (generateCodeSolutions e mos)).data), none,
              some ⟨(selectBestCodeSolution (generateCodeSolutions e mos)).index,
                    (selectBestCodeSolution (generateCodeSolutions e mos)).reason⟩⟩) := by
  rcases hL : (extractVerifyLoop ext ver).result with m | oe
  · left
    exact ⟨m, rfl, by simp [executeCodingWorkflow, hL]⟩
  · match oe with
    | none =>
      right; left
      exact ⟨rfl, by simp [executeCodingWorkflow, hL]⟩
    | some e =>
      right; right
      exact ⟨e, rfl, by simp [executeCodingWorkflow, hL]⟩

/-- When classification answers `coding`, the pro workflow is the coding
branch prefixed by the 10% emission, with a thrown error converted to a
failed result. -/
theorem executeProWorkflow_coding (cresp : Except String (Option String))
    (ext : Nat → Except String ExtractedProblem) (ver : Nat → Bool)
    (mos : Nat → ModelOutcome) (gens : Nat → Except String String)
    (hc : classifyQuestion cresp = .coding) :
    executeProWorkflow cresp ext ver mos gens =
      (updateStatus "问题分类中..." 10 "正在分析问题类型" :: (executeCodingWorkflow ext ver mos).1,
       match (executeCodingWorkflow ext ver mos).2 with
       | .ok r => r
       | .error m => ⟨false, none, some (jsOr (some m) "工作流执行失败"), none⟩) := by
  rcases hE : executeCodingWorkflow ext ver mos with ⟨ems, res⟩
  rcases res with m | r <;> simp [executeProWorkflow, hc, hE]

/-- C1: in the coding branch the extraction/verification loop performs at
most 3 extraction attempts and at most 3 verification checks; when the
loop reaches attempt 3 and that verification returns `false`, the run
aborts fatally (`success = false` with an error message); and whenever
the run succeeds, its payload was generated from a statement that was
extracted and verified on one of the three attempts — never from an
unverified extraction. -/
theorem extraction_loop_bounded_and_gated (cresp : Except String (Option String))
    (ext : Nat → Except String ExtractedProblem) (ver : Nat → Bool)
    (mos : Nat → ModelOutcome) (gens : Nat → Except String String)
    (hc : classifyQuestion cresp = .coding) :
    (extractVerifyLoop ext ver).nExt ≤ 3 ∧
    (extractVerifyLoop ext ver).nVer ≤ 3 ∧
    (∀ e, ext 3 = .ok e → ver 3 = false → (extractVerifyLoop ext ver).nExt = 3 →
      (executeProWorkflow cresp ext ver mos gens).2.success = false ∧
      ((executeProWorkflow cresp ext ver mos gens).2.error).isSome = true) ∧
    ((executeProWorkflow cresp ext ver mos gens).2.success = true →
      ∃ e, ((ext 1 = .ok e ∧ ver 1 = true) ∨ (ext 2 = .ok e ∧ ver 2 = true) ∨
        (ext 3 = .ok e ∧ ver 3 = true)) ∧
        (executeProWorkflow cresp ext ver mos gens).2.data =
          some (.code (selectBestCodeSolution (generateCodeSolutions e mos)).data)) := by
  obtain ⟨hb1, hb2, hprov, hnone, hgate⟩ := loop_facts ext ver
  rw [executeProWorkflow_coding cresp ext ver mos gens hc]
  refine ⟨hb1, hb2, fun e he3 hv3 hn3 => ?_, fun hsucc => ?_⟩
  · rcases hgate e he3 hv3 hn3 with ⟨m, hm⟩
    rcases executeCodingWorkflow_result ext ver mos with ⟨m', hL, hE⟩ | ⟨hL, hE⟩ | ⟨e', hL, hE⟩
    · rw [hE]
      simp [jsOr]
    · rw [hE]
      simp [jsOr]
    · rw [hm] at hL
      exact absurd hL (by simp)
  · rcases executeCodingWorkflow_result ext ver mos with ⟨m', hL, hE⟩ | ⟨hL, hE⟩ | ⟨e', hL, hE⟩
    · rw [hE] at hsucc
      simp at hsucc
    · rw [hE] at hsucc
      simp at hsucc
    · rw [hE]
      exact ⟨e', hprov e' hL, rfl⟩

/-- Witness for C1: with extraction always succeeding and verification
always `false`, the third check is reached and `false`, and the run
aborts with `success = false` and an error message. -/
theorem extraction_loop_bounded_and_gated_witness :
    (executeProWorkflow crespCoding extAlwaysOk verAlwaysFalse factorialOutcomes
      gensAllOk).2.success = false ∧
    ((executeProWorkflow crespCoding extAlwaysOk verAlwaysFalse factorialOutcomes
      gensAllOk).2.error).isSome = true :=
  (extraction_loop_bounded_and_gated crespCoding extAlwaysOk verAlwaysFalse factorialOutcomes
    gensAllOk rfl).2.2.1 factorialProblem rfl rfl rfl

/-- C3 (amended): the emitted progress sequence is non-decreasing in
every run except those where the first verification check returns
`false`: there the retry emission (progress `40 + 1*5 = 45`) directly
follows the verification emission at 50.  Under the hypothesis that a
successful first extraction is never verified `false`, every emitted
progress trace is non-decreasing. -/
theorem progress_nondecreasing_amended (cresp : Except String (Option String))
    (ext : Nat → Except String ExtractedProblem) (ver : Nat → Bool)
    (mos : Nat → ModelOutcome) (gens : Nat → Except String String)
    (h : ∀ e, ext 1 = .ok e → ver 1 = true) :
    nonDecr (((executeProWorkflow cresp ext ver mos gens).1).map WorkflowState.progress)
      = true := by
  rcases hq : classifyQuestion cresp with _ | _
  · rw [executeProWorkflow_coding cresp ext ver mos gens hq]
    rcases h1 : ext 1 with m1 | e1
    · rcases h2 : ext 2 with m2 | e2 <;> cases hv2 : ver 2 <;>
        rcases h3 : ext 3 with m3 | e3 <;> cases hv3 : ver 3 <;>
          simp [executeCodingWorkflow, extractVerifyLoop, attemptStep, h1, h2, hv2, h3, hv3,
            nonDecr, updateStatus]
    · have hv1 : ver 1 = true := h e1 h1
      simp [executeCodingWorkflow, extractVerifyLoop, attemptStep, h1, hv1,
        nonDecr, updateStatus]
  · simp [executeProWorkflow, hq, executeGeneralWorkflow, nonDecr, updateStatus]

/-- Witness for C3 (amended): with verification passing on the first
attempt the trace is non-decreasing. -/
theorem progress_nondecreasing_amended_witness :
    nonDecr (((executeProWorkflow crespCoding extAlwaysOk verAlwaysTrue factorialOutcomes
      gensAllOk).1).map WorkflowState.progress) = true :=
  progress_nondecreasing_amended crespCoding extAlwaysOk verAlwaysTrue factorialOutcomes
    gensAllOk (fun _ _ => rfl)

/-- Counterexample for C3 as stated: in the run where extraction always
succeeds and verification fails exactly on attempt 1, the emitted
progress sequence is `10, 30, 50, 45, 50, 70, 90, 100` — the retry
emission at 45 follows the verification emission at 50, so the sequence
is not monotonically non-decreasing. -/
theorem progress_nondecreasing_counterexample :
    nonDecr (((executeProWorkflow crespCoding extAlwaysOk verFalseThenTrue factorialOutcomes
      gensAllOk).1).map WorkflowState.progress) = false := by
  rfl

/-- C4 (amended): no emitted state ever carries an error (`updateStatus`
never sets one); on runs that return `success = true` the last emission
is the 100% `完成` state; on fatal aborts (`success = false`) no further
emission is made — the error is delivered only in the returned
`WorkflowResult.error`. -/
theorem terminal_emission_amended (cresp : Except String (Option String))
    (ext : Nat → Except String ExtractedProblem) (ver : Nat → Bool)
    (mos : Nat → ModelOutcome) (gens : Nat → Except String String) :
    (∀ s ∈ (executeProWorkflow cresp ext ver mos gens).1, s.error = none) ∧
    ((executeProWorkflow cresp ext ver mos gens).2.success = true →
      ∃ d, ((executeProWorkflow cresp ext ver mos gens).1).getLast? =
        some ⟨"完成", 100, d, none⟩) ∧
    ((executeProWorkflow cresp ext ver mos gens).2.success = false →
      ((executeProWorkflow cresp ext ver mos gens).2.error).isSome = true) := by
  rcases hq : classifyQuestion cresp with _ | _
  · rw [executeProWorkflow_coding cresp ext ver mos gens hq]
    rcases h1 : ext 1 with m1 | e1 <;> cases hv1 : ver 1 <;>
      rcases h2 : ext 2 with m2 | e2 <;> cases hv2 : ver 2 <;>
        rcases h3 : ext 3 with m3 | e3 <;> cases hv3 : ver 3 <;>
          simp [executeCodingWorkflow, extractVerifyLoop, attemptStep, h1, hv1, h2, hv2, h3, hv3,
            updateStatus, jsOr]
  · simp [executeProWorkflow, hq, executeGeneralWorkflow, updateStatus]

/-- Witness for C4 (amended): a fully successful run's last emission is
the 100% completion state. -/
theorem terminal_emission_amended_witness :
    ∃ d, ((executeProWorkflow crespCoding extAlwaysOk verAlwaysTrue factorialOutcomes
      gensAllOk).1).getLast? = some ⟨"完成", 100, d, none⟩ :=
  (terminal_emission_amended crespCoding extAlwaysOk verAlwaysTrue factorialOutcomes
    gensAllOk).2.1 rfl

/-- Counterexample for C4 as stated: in the run where extraction always
succeeds and verification always fails, the run aborts
(`success = false`), yet the last emitted state is the attempt-3
verification update — progress 50, step `验证提取结果...`, no error set —
so the observer never receives a terminal (completed-or-error)
emission. -/
theorem terminal_emission_counterexample :
    ((executeProWorkflow crespCoding extAlwaysOk verAlwaysFalse factorialOutcomes
      gensAllOk).1).getLast? = some ⟨"验证提取结果...", 50, "第3次验证提取的文本内容", none⟩ ∧
    (executeProWorkflow crespCoding extAlwaysOk verAlwaysFalse factorialOutcomes
      gensAllOk).2.success = false :=
  ⟨rfl, rfl⟩
